import Mathlib

/-!
Shallow embedding of `src/js/third-party/enhanced-search.js`, the
`EnhancedSearch` client-side search widget of the theme.

Modelling conventions:
* JS strings are `List Char` (`Str`); `toLowerCase` is `Char.toLower` mapped
  over the list.
* JS numbers are `ℚ` (the scoring arithmetic is exact on the values the
  widget produces).
* The widget's mutable instance fields become an explicit `SearchState`
  record threaded through the handlers; each `async` function is split at
  its `await` points into atomic segments (JS is single threaded, so other
  handlers interleave only at those points).
-/

/-- JS strings, modelled as lists of characters. -/
abbrev Str := List Char

/-- `s.toLowerCase()`. -/
def toLowerStr (s : Str) : Str := s.map Char.toLower

/-- `v || d` for a possibly-missing JS string: `undefined` and the empty
string are both falsy, so both fall back to the default. -/
def jsOr (v : Option Str) (d : Str) : Str :=
  match v with
  | none => d
  | some s => if s = [] then d else s

/-- `value.trim()`: strip whitespace from both ends. -/
def trimStr (s : Str) : Str :=
  ((s.dropWhile Char.isWhitespace).reverse.dropWhile Char.isWhitespace).reverse

/-- `hay.indexOf(needle)`: position of the first occurrence (`none` for -1). -/
def indexOfSub (needle : Str) : Str → Option Nat
  | [] => if needle = [] then some 0 else none
  | c :: rest =>
    if needle.isPrefixOf (c :: rest) then some 0
    else (indexOfSub needle rest).map (· + 1)

/-- `hay.includes(needle)`. -/
def containsSub (needle hay : Str) : Bool := (indexOfSub needle hay).isSome

/-- Worker for `stripTags`, a left-to-right scan equivalent to the global
regex replacement: `none` means "outside any candidate tag"; `some buf`
means a `<` has been seen and `buf` holds the (reversed) non-`>` characters
consumed since.  The regex `<[^>]+>` matches at a `<` exactly when at least
one non-`>` character is followed by `>`; the match (buffer plus closing
`>`) is dropped, a `<>` pair and an unclosed `<...` tail are kept
verbatim (no character after the buffered `<` can start a match: the
buffered characters are all non-`>` and a match needs a closing `>`). -/
def stripAux : Option Str → Str → Str
  | none, [] => []
  | none, c :: rest => if c = '<' then stripAux (some []) rest else c :: stripAux none rest
  | some buf, [] => '<' :: buf.reverse
  | some buf, c :: rest =>
    if c = '>' then
      if buf = [] then '<' :: '>' :: stripAux none rest
      else stripAux none rest
    else stripAux (some (c :: buf)) rest

/-- `content.replace(/<[^>]+>/g, '')` (lines 134, 138): every match of
`<[^>]+>` is deleted, everything else is kept. -/
def stripTags (content : Str) : Str := stripAux none content

/-- The separator class `[\s\-]` of the tokenizer. -/
def isSepChar (c : Char) : Bool := c.isWhitespace || c = '-'

/-- Worker for `tokenize`: collects maximal runs of non-separator
characters (`cur` is the current run, reversed). -/
def splitTokens : Str → Str → List Str
  | [], cur => if cur = [] then [] else [cur.reverse]
  | c :: rest, cur =>
    if isSepChar c then
      (if cur = [] then [] else [cur.reverse]) ++ splitTokens rest []
    else splitTokens rest (c :: cur)

/-- `query.toLowerCase().split(/[\s\-]+/).filter(k => k.length > 0)`
(line 214): splitting on separator runs and dropping empty pieces yields
exactly the maximal runs of non-separator characters of the lower-cased
query. -/
def tokenize (query : Str) : List Str := splitTokens (toLowerStr query) []

/-- A raw record of `search.json`: `{title?: string, content?: string,
url: string}`. -/
structure DocumentRecord where
  title : Option Str
  content : Option Str
  url : Str
deriving DecidableEq

/-- An `IndexedDocument` as built by `preprocessSearchData` (lines 131-141). -/
structure IndexedDocument where
  id : Nat
  title : Str
  content : Str
  url : Str
  titleLower : Str
  contentLower : Str
  weight : ℚ
deriving DecidableEq

/-- `calculateWeight(item)` (lines 145-157): base 1, +0.1 for a truthy title
longer than 10 characters, +0.2 when the raw content length exceeds 500 and
+0.3 more when it exceeds 1000.  (A falsy title has length 0, so the JS
truthiness test `item.title && ...` folds into the length test.) -/
def calculateWeight (item : DocumentRecord) : ℚ :=
  1 + (match item.title with
        | some t => if 10 < t.length then 1/10 else 0
        | none => 0)
    + (if 500 < (jsOr item.content []).length then 2/10 else 0)
    + (if 1000 < (jsOr item.content []).length then 3/10 else 0)

/-- The `'Untitled'` sentinel for a missing title. -/
def untitled : Str := ("Untitled").toList

/-- The body of the `data.map((item, index) => ...)` call in
`preprocessSearchData` (lines 131-141).  Note that `titleLower` is computed
from `(item.title || '')`, not from the defaulted `title` field. -/
def preprocessOne (index : Nat) (item : DocumentRecord) : IndexedDocument :=
  { id := index
    title := jsOr item.title untitled
    content := stripTags (jsOr item.content [])
    url := item.url
    titleLower := toLowerStr (jsOr item.title [])
    contentLower := toLowerStr (stripTags (jsOr item.content []))
    weight := calculateWeight item }

/-- `map` with the element index, as in `data.map((item, index) => ...)`. -/
def mapWithIndex (f : Nat → α → β) : Nat → List α → List β
  | _, [] => []
  | i, a :: rest => f i a :: mapWithIndex f (i + 1) rest

/-- `preprocessSearchData(data)` (lines 130-142). -/
def preprocessSearchData (data : List DocumentRecord) : List IndexedDocument :=
  mapWithIndex preprocessOne 0 data

/-- The loop state of `calculateMatchScore`. -/
structure ScoreAcc where
  score : ℚ
  titleMatches : Nat
  contentMatches : Nat
deriving DecidableEq

/-- One iteration of the keyword loop of `calculateMatchScore`
(lines 248-265). -/
def scoreKeyword (item : IndexedDocument) (acc : ScoreAcc) (keyword : Str) : ScoreAcc :=
  let acc :=
    if containsSub keyword item.titleLower then
      { acc with
        titleMatches := acc.titleMatches + 1
        score := acc.score + 10 * item.weight
          + (if item.titleLower = keyword then 20 else 0) }
    else acc
  if containsSub keyword item.contentLower then
    { acc with
      contentMatches := acc.contentMatches + 1
      score := acc.score + 1 * item.weight }
  else acc

/-- `calculateMatchScore(item, keywords)` (lines 243-277). -/
def calculateMatchScore (item : IndexedDocument) (keywords : List Str) : ℚ :=
  let acc := keywords.foldl (scoreKeyword item) ⟨0, 0, 0⟩
  if acc.titleMatches = 0 ∧ acc.contentMatches = 0 then 0
  else acc.score *
    (((acc.titleMatches : ℚ) + (acc.contentMatches : ℚ)) / (keywords.length : ℚ))

/-- The opening highlight marker `<mark class="search-highlight">`. -/
def markOpen : Str := ("<mark class=\"search-highlight\">").toList

/-- The closing highlight marker `</mark>`. -/
def markClose : Str := ("</mark>").toList

/-- One `highlighted.replace(new RegExp(escapeRegExp(keyword), 'gi'),
'<mark class="search-highlight">$1</mark>')` pass (lines 283-286): every
case-insensitive, left-to-right, non-overlapping occurrence of the keyword
is wrapped in the marker ($1 keeps the matched text's original case).
`escapeRegExp` makes the keyword match literally, so the embedding compares
characters directly.  Keywords reaching this function are non-empty (the
tokenizer drops empty tokens); an empty keyword is returned unchanged. -/
def highlightOne (keyword : Str) : Str → Str
  | [] => []
  | c :: rest =>
    if keyword = [] then c :: rest
    else if toLowerStr ((c :: rest).take keyword.length) = toLowerStr keyword then
      markOpen ++ (c :: rest).take keyword.length ++ markClose
        ++ highlightOne keyword ((c :: rest).drop keyword.length)
    else c :: highlightOne keyword rest
termination_by t => t.length
decreasing_by
  · simp only [List.length_drop, List.length_cons]
    have : keyword.length ≠ 0 := fun hlen => by
      rename_i hk _
      exact hk (List.eq_nil_of_length_eq_zero hlen)
    omega
  · simp [List.length_cons]

/-- `highlightKeywords(text, keywords)` (lines 280-289): each keyword's
replacement pass feeds the next. -/
def highlightKeywords (text : Str) (keywords : List Str) : Str :=
  keywords.foldl (fun highlighted keyword => highlightOne keyword highlighted) text

/-- `getHighlightedExcerpt(item, keywords)` (lines 292-320) with the default
`maxLength = 150`.  `Math.max(0, firstMatchIndex - 50)` is truncated `Nat`
subtraction. -/
def getHighlightedExcerpt (item : IndexedDocument) (keywords : List Str) : Str :=
  let content := item.content
  if content = [] then []
  else
    let firstMatchIndex := keywords.foldl (fun fmi keyword =>
      match indexOfSub keyword item.contentLower with
      | some i =>
        match fmi with
        | some j => if i < j then some i else some j
        | none => some i
      | none => fmi) none
    match firstMatchIndex with
    | none => highlightKeywords (content.take 150) keywords ++ ("...").toList
    | some idx =>
      let start := idx - 50
      let stop := min content.length (start + 150)
      let excerpt := (content.take stop).drop start
      let excerpt := if 0 < start then ("...").toList ++ excerpt else excerpt
      let excerpt := if stop < content.length then excerpt ++ ("...").toList else excerpt
      highlightKeywords excerpt keywords

/-- A `ResultItem`: the spread `{...item}` plus `matchScore` and the two
highlight fields (lines 221-226). -/
structure ResultItem where
  item : IndexedDocument
  matchScore : ℚ
  highlightedTitle : Str
  highlightedContent : Str
deriving DecidableEq

/-- The object pushed by `performSearch` for a positive-scoring document
(lines 221-226). -/
def mkResultItem (item : IndexedDocument) (keywords : List Str) (matchScore : ℚ) :
    ResultItem :=
  { item := item
    matchScore := matchScore
    highlightedTitle := highlightKeywords item.title keywords
    highlightedContent := getHighlightedExcerpt item keywords }

/-- The scan loop of `performSearch` (lines 217-233): each document is
scored; positive scorers are appended to `results`; after each document the
loop breaks once `results.length >= maxResults * 2`. -/
def scanLoop (keywords : List Str) (cutoff : Nat) :
    List IndexedDocument → List ResultItem → List ResultItem
  | [], results => results
  | item :: rest, results =>
    let matchScore := calculateMatchScore item keywords
    let results :=
      if 0 < matchScore then results ++ [mkResultItem item keywords matchScore]
      else results
    if cutoff ≤ results.length then results
    else scanLoop keywords cutoff rest results

/-- The comparator `(a, b) => b.matchScore - a.matchScore` of
`results.sort` (line 236), read as the "may stay before" test of a stable
sort: `a` may precede `b` iff the comparator value is ≤ 0.  ES2019 requires
`Array.prototype.sort` to be stable, so the sort is a stable merge sort with
this test. -/
def scoreLE (a b : ResultItem) : Bool := decide (b.matchScore ≤ a.matchScore)

/-- `performSearch(query, searchIndex)` (lines 213-240), with the
configured `maxResults` made explicit. -/
def performSearch (query : Str) (searchIndex : List IndexedDocument)
    (maxResults : Nat) : List ResultItem :=
  let keywords := tokenize query
  let results := scanLoop keywords (maxResults * 2) searchIndex []
  (results.mergeSort scoreLE).take maxResults

/-- What the result container (`resultElement.innerHTML`) currently shows,
abstracted to the distinct states the widget can render. -/
inductive Display where
  | empty
  | loading
  | error
  | resultsList (results : List ResultItem) (query : Str)
  | noResults (query : Str)
deriving DecidableEq

/-- The `searchCache` `Map`, as an association list; `Map.set` updates an
existing key in place and appends a new one. -/
def cacheLookup (cache : List (Str × List ResultItem)) (query : Str) :
    Option (List ResultItem) :=
  match cache with
  | [] => none
  | (k, v) :: rest => if k = query then some v else cacheLookup rest query

/-- `searchCache.set(query, results)` (line 199). -/
def cacheInsert (cache : List (Str × List ResultItem)) (query : Str)
    (results : List ResultItem) : List (Str × List ResultItem) :=
  match cache with
  | [] => [(query, results)]
  | (k, v) :: rest =>
    if k = query then (query, results) :: rest
    else (k, v) :: cacheInsert rest query results

/-- The widget's mutable instance fields (lines 23-27) plus the two DOM
handles it mutates (the input's value and the result container's display),
plus a ghost counter `fetchCount` recording how many times `fetch` has been
issued (instrumentation only; no definition branches on it). -/
structure SearchState where
  searchIndex : Option (List IndexedDocument)
  searchCache : List (Str × List ResultItem)
  isLoading : Bool
  currentQuery : Str
  abortController : Bool
  inputValue : Str
  display : Display
  fetchCount : Nat
deriving DecidableEq

/-- The state right after the constructor's field initialisation
(lines 23-27). -/
def initialState : SearchState :=
  { searchIndex := none
    searchCache := []
    isLoading := false
    currentQuery := []
    abortController := false
    inputValue := []
    display := .empty
    fetchCount := 0 }

/-- `showLoadingState()` (lines 368-376). -/
def showLoadingState (s : SearchState) : SearchState := { s with display := .loading }

/-- `showErrorState()` (lines 388-396). -/
def showErrorState (s : SearchState) : SearchState := { s with display := .error }

/-- `clearResults()` (lines 398-402). -/
def clearResults (s : SearchState) : SearchState := { s with display := .empty }

/-- `displayResults(results, query)` (lines 328-338): an empty result list
renders the empty state, otherwise the result list. -/
def displayResults (s : SearchState) (results : List ResultItem) (query : Str) :
    SearchState :=
  { s with display := if results = [] then .noResults query else .resultsList results query }

/-- `clearSearch()` (lines 404-410): clear the input, the results and
`currentQuery`. -/
def clearSearch (s : SearchState) : SearchState :=
  let s := { s with inputValue := [] }
  let s := clearResults s
  { s with currentQuery := [] }

/-- The environment's contribution to one index load: how the `fetch` and
`response.json()` pair settles. -/
inductive FetchOutcome where
  | success (data : List DocumentRecord)
  | httpError (status : Nat)
  | aborted
  | badJson
deriving DecidableEq

/-- How an `async` call settles for its awaiter: a value, or a thrown
error. -/
inductive LoadResult where
  | returned (value : Option (List IndexedDocument))
  | threw
deriving DecidableEq

/-- `loadSearchIndex()` (lines 80-127) as one run.  Three paths:
* the index is already loaded: return it (line 81);
* a load is in flight (`isLoading`): poll until it settles, then return
  `this.searchIndex` (lines 83-89) — in the single-threaded event loop the
  waiter resumes only after the in-flight load has settled, so this path is
  a function of the settled state `settled`;
* otherwise this call initiates the load: set `isLoading`, show the loading
  display, install the `AbortController`, issue the fetch (counted by the
  ghost `fetchCount`), and dispatch on the outcome: non-2xx and malformed
  JSON show the error display and rethrow (lines 102-104, 119-121), an
  abort resolves to `null` (lines 114-117), success stores the preprocessed
  index; the `finally` block (lines 123-126) clears `isLoading` and the
  `AbortController`. -/
def loadSearchIndex (s : SearchState) (outcome : FetchOutcome)
    (settled : SearchState) : LoadResult × SearchState :=
  match s.searchIndex with
  | some idx => (.returned (some idx), s)
  | none =>
    if s.isLoading then
      (.returned settled.searchIndex, settled)
    else
      let s1 := showLoadingState { s with isLoading := true }
      let s1 := { s1 with abortController := true, fetchCount := s1.fetchCount + 1 }
      match outcome with
      | .success data =>
        let idx := preprocessSearchData data
        (.returned (some idx),
          { s1 with searchIndex := some idx, isLoading := false, abortController := false })
      | .httpError _ =>
        (.threw, { showErrorState s1 with isLoading := false, abortController := false })
      | .badJson =>
        (.threw, { showErrorState s1 with isLoading := false, abortController := false })
      | .aborted =>
        (.returned none, { s1 with isLoading := false, abortController := false })

/-- `preloadSearchIndex()` (lines 69-77) with the default `preload`: the
`try`/`catch` swallows any load error. -/
def preloadSearchIndex (s : SearchState) (outcome : FetchOutcome)
    (settled : SearchState) : SearchState :=
  (loadSearchIndex s outcome settled).2

/-- Outcome of the synchronous first segment of `handleSearch`, up to the
`await this.loadSearchIndex()` on line 190. -/
inductive Phase1Out where
  | tooShort
  | cacheHit (results : List ResultItem)
  | suspended (query : Str)
deriving DecidableEq

/-- Lines 172-186 of `handleSearch`: trim the input value, reject
too-short queries (clearing the results but not `currentQuery`), set
`currentQuery`, probe the cache. -/
def handleSearchPhase1 (s : SearchState) (raw : Str) (minQueryLength : Nat) :
    SearchState × Phase1Out :=
  let query := trimStr raw
  if query.length < minQueryLength then
    (clearResults s, .tooShort)
  else
    let s := { s with currentQuery := query }
    match cacheLookup s.searchCache query with
    | some results => (displayResults s results query, .cacheHit results)
    | none => (s, .suspended query)

/-- Lines 188-209 of `handleSearch`: the continuation after
`await this.loadSearchIndex()` settles with `loadRes`, resuming in state
`s` (other handlers may have run during the await; this whole segment is
synchronous, hence atomic).  The `catch` shows the error display; a `null`
index or a stale `currentQuery` returns silently (line 191); otherwise the
search runs, the results are cached (line 199) and, when `currentQuery`
still equals the query (line 202), displayed. -/
def handleSearchPhase2 (s : SearchState) (query : Str) (loadRes : LoadResult)
    (maxResults : Nat) : SearchState :=
  match loadRes with
  | .threw => showErrorState s
  | .returned none => s
  | .returned (some searchIndex) =>
    if s.currentQuery ≠ query then s
    else
      let results := performSearch query searchIndex maxResults
      let s1 := { s with searchCache := cacheInsert s.searchCache query results }
      if s1.currentQuery = query then displayResults s1 results query else s1

/-- One complete `handleSearch` invocation during whose await nothing else
interleaves: the load's output state is the resumption state. -/
def handleSearchRun (s : SearchState) (raw : Str) (outcome : FetchOutcome)
    (settled : SearchState) (maxResults minQueryLength : Nat) : SearchState :=
  match handleSearchPhase1 s raw minQueryLength with
  | (s1, .suspended query) =>
    let r := loadSearchIndex s1 outcome settled
    handleSearchPhase2 r.2 query r.1 maxResults
  | (s1, .tooShort) => s1
  | (s1, .cacheHit _) => s1

/-- `options.x || d` for a numeric option (constructor lines 13-21):
`undefined` and `0` are falsy, so both fall back to the default. -/
def resolveNat (v : Option Nat) (d : Nat) : Nat :=
  match v with
  | none => d
  | some n => if n = 0 then d else n

/-- The numeric options the embedded logic consults, with the constructor's
defaults `maxResults = 50`, `minQueryLength = 2`. -/
def resolvedMaxResults (v : Option Nat) : Nat := resolveNat v 50

def resolvedMinQueryLength (v : Option Nat) : Nat := resolveNat v 2

/-- Modelled from the spec (§4.2, claim C1): the per-token points of the
documented scoring formula, stated directly from the spec's words — `10 ×
weight` when the token is a substring of `titleLower`, a further flat `20`
when `titleLower` equals the token exactly, and `1 × weight` when the token
is a substring of `contentLower`.  Used only to compare the documented
formula with `calculateMatchScore` as embedded from the code. -/
def specTokenPoints (item : IndexedDocument) (token : Str) : ℚ :=
  (if containsSub token item.titleLower then
    10 * item.weight + (if item.titleLower = token then 20 else 0)
  else 0)
    + (if containsSub token item.contentLower then item.weight else 0)

/-- Modelled from the spec (§4.2, claim C1): the documented
weighted-coverage score — sum the per-token points; if no token matched
either field the score is 0, otherwise multiply by coverage =
(title-match-count + content-match-count) / total-token-count. -/
def specScore (item : IndexedDocument) (tokens : List Str) : ℚ :=
  let titleCount := (tokens.filter (fun t => containsSub t item.titleLower)).length
  let contentCount := (tokens.filter (fun t => containsSub t item.contentLower)).length
  if titleCount = 0 ∧ contentCount = 0 then 0
  else (tokens.map (specTokenPoints item)).sum *
    (((titleCount : ℚ) + (contentCount : ℚ)) / (tokens.length : ℚ))

/-- The result items of all positive-scoring documents, in scan order: what
the scan loop produces when the cutoff never fires. -/
def posResults (keywords : List Str) (docs : List IndexedDocument) : List ResultItem :=
  docs.filterMap (fun item =>
    let matchScore := calculateMatchScore item keywords
    if 0 < matchScore then some (mkResultItem item keywords matchScore) else none)

/-! Concrete sample data (the spec's §8 example plus variants), used by the
witness and counterexample theorems below.  Strings are spelled as explicit
character lists so that the string-level computations stay kernel-reducible. -/

/-- The sample query `"learn"`. -/
def qLearn : Str := ['l', 'e', 'a', 'r', 'n']

/-- A one-character input, below the default minimum query length. -/
def qShort : Str := ['x']

/-- `{title: "Rust Guide", content: "Learn systems programming", url: "/a"}`. -/
def sampleDocA : DocumentRecord :=
  { title := some ['R', 'u', 's', 't', ' ', 'G', 'u', 'i', 'd', 'e']
    content := some ['L', 'e', 'a', 'r', 'n', ' ', 's', 'y', 's', 't', 'e', 'm', 's',
      ' ', 'p', 'r', 'o', 'g', 'r', 'a', 'm', 'm', 'i', 'n', 'g']
    url := ['/', 'a'] }

/-- `{title: "Go Basics", content: "Learn concurrency", url: "/b"}`. -/
def sampleDocB : DocumentRecord :=
  { title := some ['G', 'o', ' ', 'B', 'a', 's', 'i', 'c', 's']
    content := some ['L', 'e', 'a', 'r', 'n', ' ', 'c', 'o', 'n', 'c', 'u', 'r', 'r',
      'e', 'n', 'c', 'y']
    url := ['/', 'b'] }

/-- `{title: "Python Intro", content: "Learn more", url: "/c"}`. -/
def sampleDocC : DocumentRecord :=
  { title := some ['P', 'y', 't', 'h', 'o', 'n', ' ', 'I', 'n', 't', 'r', 'o']
    content := some ['L', 'e', 'a', 'r', 'n', ' ', 'm', 'o', 'r', 'e']
    url := ['/', 'c'] }

/-- A record with a missing title and HTML markup in its content. -/
def sampleNoTitle : DocumentRecord :=
  { title := none
    content := some ['<', 'p', '>', 'H', 'i', '<', '/', 'p', '>']
    url := ['/', 'n'] }

def idxAB : List IndexedDocument := preprocessSearchData [sampleDocA, sampleDocB]

def idxABC : List IndexedDocument :=
  preprocessSearchData [sampleDocA, sampleDocB, sampleDocC]

/-- A state in which an index load is in flight: what a concurrent
`loadSearchIndex` caller observes between the initiator's fetch and its
settlement. -/
def midLoadState : SearchState :=
  { initialState with
    isLoading := true
    abortController := true
    display := .loading
    fetchCount := 1 }

/-- The result item the scan produces for the first sample document on the
query `"learn"` (its match score evaluates to 1: one content match, weight
1, coverage 1). -/
def sampleResA : ResultItem := mkResultItem (preprocessOne 0 sampleDocA) [qLearn] 1

/-- The result item the scan produces for the second sample document on the
query `"learn"` (match score 1 as well). -/
def sampleResB : ResultItem := mkResultItem (preprocessOne 1 sampleDocB) [qLearn] 1

/-! ### Helper lemmas -/

theorem scanLoop_nil (keywords : List Str) (cutoff : Nat) (acc : List ResultItem) :
    scanLoop keywords cutoff [] acc = acc := rfl

theorem scanLoop_cons (keywords : List Str) (cutoff : Nat) (item : IndexedDocument)
    (rest : List IndexedDocument) (acc : List ResultItem) :
    scanLoop keywords cutoff (item :: rest) acc =
      (let matchScore := calculateMatchScore item keywords
       let results :=
         if 0 < matchScore then acc ++ [mkResultItem item keywords matchScore] else acc
       if cutoff ≤ results.length then results
       else scanLoop keywords cutoff rest results) := rfl

theorem foldl_scoreKeyword (item : IndexedDocument) (tokens : List Str) (a : ScoreAcc) :
    tokens.foldl (scoreKeyword item) a =
      { score := a.score + (tokens.map (specTokenPoints item)).sum
        titleMatches :=
          a.titleMatches + (tokens.filter (fun t => containsSub t item.titleLower)).length
        contentMatches :=
          a.contentMatches + (tokens.filter (fun t => containsSub t item.contentLower)).length } := by
  induction tokens generalizing a with
  | nil => simp
  | cons t ts ih =>
    simp only [List.foldl_cons, List.map_cons, List.sum_cons, List.filter_cons]
    rw [ih]
    unfold scoreKeyword specTokenPoints
    by_cases h1 : containsSub t item.titleLower <;>
      by_cases h2 : containsSub t item.contentLower <;>
        simp [h1, h2, ScoreAcc.mk.injEq] <;>
          (repeat' constructor) <;>
            first | ring | omega

theorem calculateMatchScore_eq_specScore (item : IndexedDocument) (tokens : List Str) :
    calculateMatchScore item tokens = specScore item tokens := by
  unfold calculateMatchScore specScore
  rw [foldl_scoreKeyword]
  simp

theorem cacheLookup_cacheInsert (cache : List (Str × List ResultItem)) (query : Str)
    (results : List ResultItem) :
    cacheLookup (cacheInsert cache query results) query = some results := by
  induction cache with
  | nil => simp [cacheInsert, cacheLookup]
  | cons kv rest ih =>
    obtain ⟨k, v⟩ := kv
    by_cases hk : k = query <;> simp [cacheInsert, cacheLookup, hk, ih]

theorem mem_scanLoop {keywords : List Str} {cutoff : Nat} :
    ∀ {docs : List IndexedDocument} {acc : List ResultItem} {r : ResultItem},
      r ∈ scanLoop keywords cutoff docs acc →
      r ∈ acc ∨ ∃ item ∈ docs, 0 < calculateMatchScore item keywords ∧
        r = mkResultItem item keywords (calculateMatchScore item keywords) := by
  intro docs
  induction docs with
  | nil => intro acc r h; exact Or.inl h
  | cons item rest ih =>
    intro acc r h
    rw [scanLoop_cons] at h
    dsimp only at h
    by_cases hpos : 0 < calculateMatchScore item keywords
    · rw [if_pos hpos] at h
      split at h
      · rcases List.mem_append.mp h with h' | h'
        · exact Or.inl h'
        · exact Or.inr ⟨item, List.mem_cons_self item rest, hpos, List.mem_singleton.mp h'⟩
      · rcases ih h with h' | ⟨it, hm, hp, he⟩
        · rcases List.mem_append.mp h' with h'' | h''
          · exact Or.inl h''
          · exact Or.inr ⟨item, List.mem_cons_self item rest, hpos, List.mem_singleton.mp h''⟩
        · exact Or.inr ⟨it, List.mem_cons_of_mem item hm, hp, he⟩
    · rw [if_neg hpos] at h
      split at h
      · exact Or.inl h
      · rcases ih h with h' | ⟨it, hm, hp, he⟩
        · exact Or.inl h'
        · exact Or.inr ⟨it, List.mem_cons_of_mem item hm, hp, he⟩

theorem posResults_nil (keywords : List Str) : posResults keywords [] = [] := rfl

theorem posResults_cons (keywords : List Str) (item : IndexedDocument)
    (rest : List IndexedDocument) :
    posResults keywords (item :: rest) =
      (if 0 < calculateMatchScore item keywords then
        [mkResultItem item keywords (calculateMatchScore item keywords)]
      else []) ++ posResults keywords rest := by
  unfold posResults
  rw [List.filterMap_cons]
  dsimp only
  by_cases hpos : 0 < calculateMatchScore item keywords <;> simp [hpos]

theorem mem_posResults {keywords : List Str} {docs : List IndexedDocument}
    {item : IndexedDocument} (hm : item ∈ docs)
    (hp : 0 < calculateMatchScore item keywords) :
    mkResultItem item keywords (calculateMatchScore item keywords) ∈
      posResults keywords docs := by
  induction docs with
  | nil => cases hm
  | cons d rest ih =>
    rw [posResults_cons]
    rcases List.mem_cons.mp hm with h | h
    · subst h
      simp [hp]
    · exact List.mem_append_right _ (ih h)

theorem scanLoop_no_break {keywords : List Str} {cutoff : Nat} :
    ∀ {docs : List IndexedDocument} {acc : List ResultItem},
      acc.length + (posResults keywords docs).length < cutoff →
      scanLoop keywords cutoff docs acc = acc ++ posResults keywords docs := by
  intro docs
  induction docs with
  | nil => intro acc h; simp [scanLoop_nil, posResults_nil]
  | cons item rest ih =>
    intro acc h
    rw [posResults_cons] at h ⊢
    rw [scanLoop_cons]
    dsimp only
    by_cases hpos : 0 < calculateMatchScore item keywords
    · rw [if_pos hpos]
      simp only [hpos, if_pos, List.length_append, List.length_cons, List.length_nil] at h
      have hlt : (acc ++ [mkResultItem item keywords (calculateMatchScore item keywords)]).length < cutoff := by
        simp only [List.length_append, List.length_cons, List.length_nil]
        omega
      rw [if_neg (by omega : ¬ cutoff ≤ (acc ++ [mkResultItem item keywords (calculateMatchScore item keywords)]).length)]
      rw [ih (by simp only [List.length_append, List.length_cons, List.length_nil]; omega)]
      simp [hpos, List.append_assoc]
    · rw [if_neg hpos]
      simp only [hpos, if_neg, List.length_append, List.length_nil, List.nil_append] at h
      rw [if_neg (by omega : ¬ cutoff ≤ acc.length)]
      rw [ih (by omega)]
      simp [hpos]

theorem scanLoop_length_le {keywords : List Str} {cutoff : Nat} :
    ∀ {docs : List IndexedDocument} {acc : List ResultItem},
      acc.length < cutoff → (scanLoop keywords cutoff docs acc).length ≤ cutoff := by
  intro docs
  induction docs with
  | nil => intro acc h; rw [scanLoop_nil]; omega
  | cons item rest ih =>
    intro acc h
    rw [scanLoop_cons]
    dsimp only
    by_cases hpos : 0 < calculateMatchScore item keywords
    · rw [if_pos hpos]
      by_cases hbr : cutoff ≤ (acc ++ [mkResultItem item keywords (calculateMatchScore item keywords)]).length
      · rw [if_pos hbr]
        simp only [List.length_append, List.length_cons, List.length_nil] at hbr ⊢
        omega
      · rw [if_neg hbr]
        apply ih
        simp only [List.length_append, List.length_cons, List.length_nil] at hbr ⊢
        omega
    · rw [if_neg hpos]
      rw [if_neg (by omega : ¬ cutoff ≤ acc.length)]
      exact ih h

theorem scanLoop_cutoff {keywords : List Str} {cutoff : Nat} :
    ∀ {docs : List IndexedDocument} {acc : List ResultItem}, acc.length < cutoff →
      ∃ n ≤ docs.length,
        scanLoop keywords cutoff docs acc = scanLoop keywords cutoff (docs.take n) acc ∧
        (n < docs.length →
          (scanLoop keywords cutoff docs acc).length = cutoff ∧
          ∀ tail, scanLoop keywords cutoff (docs.take n ++ tail) acc =
            scanLoop keywords cutoff docs acc) := by
  intro docs
  induction docs with
  | nil =>
    intro acc h
    exact ⟨0, Nat.le_refl 0, rfl, fun h' => absurd h' (Nat.lt_irrefl 0)⟩
  | cons item rest ih =>
    intro acc h
    set res := (if 0 < calculateMatchScore item keywords then
        acc ++ [mkResultItem item keywords (calculateMatchScore item keywords)]
      else acc) with hres
    have hlen : res.length ≤ acc.length + 1 := by
      rw [hres]; split <;> simp
    by_cases hbr : cutoff ≤ res.length
    · have hscan : ∀ tail, scanLoop keywords cutoff (item :: tail) acc = res := by
        intro tail
        rw [scanLoop_cons]
        dsimp only
        rw [← hres, if_pos hbr]
      refine ⟨1, by simp, ?_, ?_⟩
      · rw [hscan rest, List.take_succ_cons, List.take_zero, hscan]
      · intro _
        refine ⟨by rw [hscan rest]; omega, ?_⟩
        intro tail
        rw [List.take_succ_cons, List.take_zero, List.singleton_append, hscan tail, hscan rest]
    · have hbr' : res.length < cutoff := by omega
      have hstep : ∀ X, scanLoop keywords cutoff (item :: X) acc =
          scanLoop keywords cutoff X res := by
        intro X
        rw [scanLoop_cons]
        dsimp only
        rw [← hres, if_neg hbr]
      obtain ⟨n', hn', heq, hcond⟩ := ih hbr'
      refine ⟨n' + 1, by simp only [List.length_cons]; omega, ?_, ?_⟩
      · rw [List.take_succ_cons, hstep rest, hstep (rest.take n')]
        exact heq
      · intro hlt
        have hlt' : n' < rest.length := by
          simp only [List.length_cons] at hlt; omega
        obtain ⟨hlen', htail⟩ := hcond hlt'
        refine ⟨by rw [hstep rest]; exact hlen', ?_⟩
        intro tail
        rw [List.take_succ_cons, List.cons_append, hstep (rest.take n' ++ tail), hstep rest]
        exact htail tail

theorem scoreLE_trans : ∀ a b c : ResultItem, scoreLE a b → scoreLE b c → scoreLE a c := by
  intro a b c hab hbc
  simp only [scoreLE, decide_eq_true_eq] at *
  exact le_trans hbc hab

theorem scoreLE_total : ∀ a b : ResultItem, scoreLE a b || scoreLE b a := by
  intro a b
  simp only [scoreLE, Bool.or_eq_true, decide_eq_true_eq]
  exact le_total b.matchScore a.matchScore

/-! ### Concrete evaluations used by witnesses and counterexamples.

`decide` handles all character- and list-level computation, but `ℚ`
arithmetic does not reduce in the kernel (`Nat.gcd` is well-founded), so
score values are evaluated through `calculateMatchScore_eq_specScore` and
`norm_num`. -/

theorem tokenize_qLearn : tokenize qLearn = [qLearn] := by decide

theorem idxAB_eq : idxAB = [preprocessOne 0 sampleDocA, preprocessOne 1 sampleDocB] := rfl

theorem weightA : (preprocessOne 0 sampleDocA).weight = 1 := by
  show calculateWeight sampleDocA = 1
  rw [calculateWeight, (by decide : (jsOr sampleDocA.content []).length = 25)]
  norm_num [sampleDocA]

theorem weightB : (preprocessOne 1 sampleDocB).weight = 1 := by
  show calculateWeight sampleDocB = 1
  rw [calculateWeight, (by decide : (jsOr sampleDocB.content []).length = 17)]
  norm_num [sampleDocB]

theorem scoreA : calculateMatchScore (preprocessOne 0 sampleDocA) [qLearn] = 1 := by
  rw [calculateMatchScore_eq_specScore]
  simp only [specScore, specTokenPoints,
    (by decide : containsSub qLearn (preprocessOne 0 sampleDocA).titleLower = false),
    (by decide : containsSub qLearn (preprocessOne 0 sampleDocA).contentLower = true),
    weightA, List.filter, List.map, List.sum_cons, List.sum_nil, List.length]
  norm_num

theorem scoreB : calculateMatchScore (preprocessOne 1 sampleDocB) [qLearn] = 1 := by
  rw [calculateMatchScore_eq_specScore]
  simp only [specScore, specTokenPoints,
    (by decide : containsSub qLearn (preprocessOne 1 sampleDocB).titleLower = false),
    (by decide : containsSub qLearn (preprocessOne 1 sampleDocB).contentLower = true),
    weightB, List.filter, List.map, List.sum_cons, List.sum_nil, List.length]
  norm_num

theorem scanLoop_idxAB {cutoff : Nat} (hc : 1 < cutoff) :
    scanLoop [qLearn] cutoff idxAB [] = [sampleResA, sampleResB] := by
  have hA : mkResultItem (preprocessOne 0 sampleDocA) [qLearn] 1 = sampleResA := rfl
  have hB : mkResultItem (preprocessOne 1 sampleDocB) [qLearn] 1 = sampleResB := rfl
  rw [idxAB_eq, scanLoop_cons]
  dsimp only
  rw [scoreA, if_pos (by norm_num : (0 : ℚ) < 1), hA, List.nil_append]
  rw [if_neg (by simp only [List.length_cons, List.length_nil]; omega :
    ¬ cutoff ≤ [sampleResA].length)]
  rw [scanLoop_cons]
  dsimp only
  rw [scoreB, if_pos (by norm_num : (0 : ℚ) < 1), hB]
  have happ : [sampleResA] ++ [sampleResB] = [sampleResA, sampleResB] := rfl
  rw [happ]
  by_cases hbr : cutoff ≤ [sampleResA, sampleResB].length
  · rw [if_pos hbr]
  · rw [if_neg hbr, scanLoop_nil]

theorem resAB_sorted : [sampleResA, sampleResB].Pairwise (fun a b => scoreLE a b) := by
  refine List.pairwise_pair.mpr ?_
  show scoreLE sampleResA sampleResB = true
  rw [scoreLE, decide_eq_true_eq]
  show (1 : ℚ) ≤ 1
  norm_num

theorem mergeSort_resAB : [sampleResA, sampleResB].mergeSort scoreLE = [sampleResA, sampleResB] :=
  List.mergeSort_of_sorted resAB_sorted

theorem performSearch_AB_50 : performSearch qLearn idxAB 50 = [sampleResA, sampleResB] := by
  unfold performSearch
  dsimp only
  rw [tokenize_qLearn, scanLoop_idxAB (by omega), mergeSort_resAB]
  rfl

theorem performSearch_AB_1 : performSearch qLearn idxAB 1 = [sampleResA] := by
  unfold performSearch
  dsimp only
  rw [tokenize_qLearn, scanLoop_idxAB (by omega), mergeSort_resAB]
  rfl

/-! ### Claim theorems -/

/-- C3 (counterexample): for a record with a missing title, the
preprocessing step sets `title` to the sentinel `"Untitled"` but computes
`titleLower` from the original (empty) title, so `titleLower` is not the
lower-cased copy of the defaulted title, contrary to the claim. -/
theorem preprocess_titleLower_mismatch :
    (preprocessOne 0 sampleNoTitle).title = untitled ∧
    (preprocessOne 0 sampleNoTitle).titleLower = [] ∧
    (preprocessOne 0 sampleNoTitle).titleLower ≠
      toLowerStr (preprocessOne 0 sampleNoTitle).title := by
  refine ⟨rfl, rfl, ?_⟩
  decide

/-- C3 (amended): the preprocessing step strips HTML tags matching
`<[^>]+>` from the content, defaults a missing (or empty, both being JS
falsy) title to `"Untitled"`, and precomputes `contentLower` as exactly the
lower-cased stored content; `titleLower`, however, is the lower-cased
ORIGINAL title (empty when the title is missing), which coincides with the
lower-cased stored title exactly when the record carries a non-empty
title. -/
theorem preprocess_field_semantics (rec : DocumentRecord) (index : Nat) :
    (preprocessOne index rec).id = index ∧
    (preprocessOne index rec).title = jsOr rec.title untitled ∧
    (preprocessOne index rec).content = stripTags (jsOr rec.content []) ∧
    (preprocessOne index rec).contentLower = toLowerStr (preprocessOne index rec).content ∧
    (preprocessOne index rec).titleLower = toLowerStr (jsOr rec.title []) ∧
    (∀ t, rec.title = some t → t ≠ [] →
      (preprocessOne index rec).titleLower = toLowerStr (preprocessOne index rec).title) := by
  refine ⟨rfl, rfl, rfl, rfl, rfl, ?_⟩
  intro t ht hne
  simp [preprocessOne, jsOr, ht, hne]

/-- C3 (witness): the amended field semantics applied to a concrete record
with a present, non-empty title. -/
theorem preprocess_field_semantics_witness :
    (preprocessOne 0 sampleDocA).titleLower =
      toLowerStr (preprocessOne 0 sampleDocA).title :=
  (preprocess_field_semantics sampleDocA 0).2.2.2.2.2 (("Rust Guide").toList) rfl
    (by decide)

/-- C4: the result sequence of `performSearch` is the stable descending
mergeSort of the scanned results truncated to `maxResults`: it is pairwise
sorted by non-increasing `matchScore`, contains at most `maxResults` items,
and any two scanned items with equal scores keep their scan order in the
sorted sequence (ES2019 `Array.prototype.sort` stability). -/
theorem performSearch_sorted_stable_truncated (query : Str)
    (searchIndex : List IndexedDocument) (maxResults : Nat) :
    performSearch query searchIndex maxResults =
      ((scanLoop (tokenize query) (maxResults * 2) searchIndex []).mergeSort scoreLE).take
        maxResults ∧
    (performSearch query searchIndex maxResults).Pairwise
      (fun a b => b.matchScore ≤ a.matchScore) ∧
    (performSearch query searchIndex maxResults).length ≤ maxResults ∧
    (∀ a b : ResultItem, a.matchScore = b.matchScore →
      List.Sublist [a, b] (scanLoop (tokenize query) (maxResults * 2) searchIndex []) →
      List.Sublist [a, b]
        ((scanLoop (tokenize query) (maxResults * 2) searchIndex []).mergeSort scoreLE)) := by
  refine ⟨rfl, ?_, ?_, ?_⟩
  · have hs := List.sorted_mergeSort scoreLE_trans scoreLE_total
      (scanLoop (tokenize query) (maxResults * 2) searchIndex [])
    have hs' : ((scanLoop (tokenize query) (maxResults * 2) searchIndex []).mergeSort
        scoreLE).Pairwise (fun a b : ResultItem => b.matchScore ≤ a.matchScore) :=
      hs.imp (fun h => by simpa [scoreLE] using h)
    exact List.Pairwise.sublist (List.take_sublist _ _) hs'
  · exact List.length_take_le _ _
  · intro a b hab hsub
    exact List.pair_sublist_mergeSort scoreLE_trans scoreLE_total
      (by simp [scoreLE, hab]) hsub

/-- C4 (witness): the stability clause applied to the spec's §8 example —
the two sample documents tie on score and keep their scan order. -/
theorem performSearch_sorted_stable_truncated_witness :
    sampleResA.matchScore = sampleResB.matchScore ∧
    List.Sublist [sampleResA, sampleResB]
      ((scanLoop (tokenize qLearn) (50 * 2) idxAB []).mergeSort scoreLE) := by
  refine ⟨rfl, ?_⟩
  refine (performSearch_sorted_stable_truncated qLearn idxAB 50).2.2.2 sampleResA sampleResB
    rfl ?_
  rw [tokenize_qLearn, scanLoop_idxAB (by omega)]

/-- C1 (counterexample): the claim's "a ResultItem is produced exactly when
the match score is positive" fails in the only-if direction: with
`maxResults = 1` both sample documents score positively, yet the result
sequence contains only the document with id 0 — the second positive scorer
is truncated away (and with a third document the scan would not even score
it).  The same failure needs more than `maxResults` positive scorers at the
default 50. -/
theorem performSearch_positive_score_dropped :
    preprocessOne 1 sampleDocB ∈ idxAB ∧
    0 < calculateMatchScore (preprocessOne 1 sampleDocB) [qLearn] ∧
    tokenize qLearn = [qLearn] ∧
    (performSearch qLearn idxAB 1).map (fun r => r.item.id) = [0] := by
  refine ⟨by rw [idxAB_eq]; simp, ?_, tokenize_qLearn, ?_⟩
  · rw [scoreB]; norm_num
  · rw [performSearch_AB_1]
    rfl

/-- C1 (amended): every produced ResultItem comes from an indexed document
with positive match score and carries exactly the documented
weighted-coverage score (`calculateMatchScore` agrees with the spec's
formula `specScore`); conversely, every positive-scoring document yields a
ResultItem provided the positive scorers number at most `maxResults`, so
that neither the `2 × maxResults` early exit nor the `maxResults`
truncation can drop it. -/
theorem performSearch_matches_documented_formula (query : Str)
    (searchIndex : List IndexedDocument) (maxResults : Nat) :
    (∀ r ∈ performSearch query searchIndex maxResults,
      ∃ item ∈ searchIndex,
        0 < calculateMatchScore item (tokenize query) ∧
        r = mkResultItem item (tokenize query) (calculateMatchScore item (tokenize query)) ∧
        r.matchScore = specScore item (tokenize query) ∧
        0 < r.matchScore) ∧
    (0 < maxResults →
      (posResults (tokenize query) searchIndex).length ≤ maxResults →
      ∀ item ∈ searchIndex, 0 < calculateMatchScore item (tokenize query) →
        mkResultItem item (tokenize query) (calculateMatchScore item (tokenize query)) ∈
          performSearch query searchIndex maxResults) := by
  constructor
  · intro r hr
    have hr2 : r ∈ scanLoop (tokenize query) (maxResults * 2) searchIndex [] :=
      List.mem_mergeSort.mp (List.mem_of_mem_take hr)
    rcases mem_scanLoop hr2 with h | ⟨item, hm, hp, he⟩
    · cases h
    · refine ⟨item, hm, hp, he, ?_, ?_⟩
      · rw [he]
        show calculateMatchScore item (tokenize query) = specScore item (tokenize query)
        exact calculateMatchScore_eq_specScore item (tokenize query)
      · rw [he]
        exact hp
  · intro hmr hcount item hm hp
    have hscan : scanLoop (tokenize query) (maxResults * 2) searchIndex [] =
        posResults (tokenize query) searchIndex := by
      have h := @scanLoop_no_break (tokenize query) (maxResults * 2) searchIndex []
        (by simp only [List.length_nil, Nat.zero_add]; omega)
      simpa using h
    unfold performSearch
    dsimp only
    rw [hscan, List.take_of_length_le]
    · exact List.mem_mergeSort.mpr (mem_posResults hm hp)
    · rw [List.length_mergeSort]
      exact hcount

/-- C1 (witness): the amended converse applied at a concrete index and
query (two documents, both positive, fitting within the default
`maxResults = 50`). -/
theorem performSearch_matches_documented_formula_witness :
    mkResultItem (preprocessOne 0 sampleDocA) (tokenize qLearn)
        (calculateMatchScore (preprocessOne 0 sampleDocA) (tokenize qLearn)) ∈
      performSearch qLearn idxAB 50 := by
  refine (performSearch_matches_documented_formula qLearn idxAB 50).2 (by omega) ?_
    (preprocessOne 0 sampleDocA) (by rw [idxAB_eq]; simp) ?_
  · rw [tokenize_qLearn, idxAB_eq, posResults_cons, posResults_cons, posResults_nil,
      scoreA, scoreB]
    simp only [if_pos (show (0 : ℚ) < 1 by norm_num)]
    simp
  · rw [tokenize_qLearn, scoreA]
    norm_num

/-- C5: the scan over the index accumulates at most `2 × maxResults`
positive-scoring documents, and the scan output is determined by a prefix
of the index: either the prefix is the whole index, or the cutoff was
reached there (the accumulated results number exactly `2 × maxResults`)
and every document after that point is never examined — replacing the
remainder of the index by any list leaves the output unchanged. -/
theorem performSearch_early_exit (query : Str) (searchIndex : List IndexedDocument)
    (maxResults : Nat) (hpos : 0 < maxResults) :
    (scanLoop (tokenize query) (maxResults * 2) searchIndex []).length ≤ maxResults * 2 ∧
    ∃ n ≤ searchIndex.length,
      scanLoop (tokenize query) (maxResults * 2) searchIndex [] =
        scanLoop (tokenize query) (maxResults * 2) (searchIndex.take n) [] ∧
      (n < searchIndex.length →
        (scanLoop (tokenize query) (maxResults * 2) searchIndex []).length =
          maxResults * 2 ∧
        ∀ tail, scanLoop (tokenize query) (maxResults * 2) (searchIndex.take n ++ tail) [] =
          scanLoop (tokenize query) (maxResults * 2) searchIndex []) := by
  constructor
  · exact scanLoop_length_le (by simp only [List.length_nil]; omega)
  · exact scanLoop_cutoff (by simp only [List.length_nil]; omega)

/-- C5 (witness): the early-exit property applied at a concrete three
document index with `maxResults = 1`. -/
theorem performSearch_early_exit_witness :
    (scanLoop (tokenize qLearn) (1 * 2) idxABC []).length ≤ 1 * 2 ∧
    ∃ n ≤ idxABC.length,
      scanLoop (tokenize qLearn) (1 * 2) idxABC [] =
        scanLoop (tokenize qLearn) (1 * 2) (idxABC.take n) [] ∧
      (n < idxABC.length →
        (scanLoop (tokenize qLearn) (1 * 2) idxABC []).length = 1 * 2 ∧
        ∀ tail, scanLoop (tokenize qLearn) (1 * 2) (idxABC.take n ++ tail) [] =
          scanLoop (tokenize qLearn) (1 * 2) idxABC []) :=
  performSearch_early_exit qLearn idxABC 1 (by omega)

/-! ### Handler-segment lemmas -/

theorem handleSearchPhase1_uncached (s : SearchState) (raw : Str) (minQueryLength : Nat)
    (hlen : minQueryLength ≤ (trimStr raw).length)
    (hmiss : cacheLookup s.searchCache (trimStr raw) = none) :
    handleSearchPhase1 s raw minQueryLength =
      ({ s with currentQuery := trimStr raw }, .suspended (trimStr raw)) := by
  unfold handleSearchPhase1
  rw [if_neg (by omega : ¬ (trimStr raw).length < minQueryLength)]
  dsimp only
  rw [hmiss]

theorem handleSearchPhase1_hit (s : SearchState) (raw : Str) (minQueryLength : Nat)
    (results : List ResultItem)
    (hlen : minQueryLength ≤ (trimStr raw).length)
    (hhit : cacheLookup s.searchCache (trimStr raw) = some results) :
    handleSearchPhase1 s raw minQueryLength =
      (displayResults { s with currentQuery := trimStr raw } results (trimStr raw),
        .cacheHit results) := by
  unfold handleSearchPhase1
  rw [if_neg (by omega : ¬ (trimStr raw).length < minQueryLength)]
  dsimp only
  rw [hhit]

theorem handleSearchPhase2_current (s : SearchState) (query : Str)
    (searchIndex : List IndexedDocument) (maxResults : Nat)
    (hcur : s.currentQuery = query) :
    handleSearchPhase2 s query (.returned (some searchIndex)) maxResults =
      displayResults
        { s with searchCache :=
            cacheInsert s.searchCache query (performSearch query searchIndex maxResults) }
        (performSearch query searchIndex maxResults) query := by
  unfold handleSearchPhase2
  dsimp only
  rw [if_neg (by simp [hcur] : ¬ s.currentQuery ≠ query)]
  rw [if_pos hcur]

/-- C2 (counterexample): query A (`"learn"`) suspends awaiting the index;
the user then enters the one-character input `"x"` (shorter than the
default minimum query length 2), which clears the results but leaves
`currentQuery` untouched; when A's load resolves, the staleness check still
sees A as current and A's results ARE rendered — contradicting the claim
for later inputs shorter than the minimum query length. -/
theorem stale_results_rendered_after_short_input :
    (handleSearchPhase1 initialState qLearn 2).2 = .suspended qLearn ∧
    (handleSearchPhase1 (handleSearchPhase1 initialState qLearn 2).1 qShort 2).2 =
      .tooShort ∧
    (handleSearchPhase1 (handleSearchPhase1 initialState qLearn 2).1 qShort 2).1.currentQuery
      = qLearn ∧
    (handleSearchPhase2
        (handleSearchPhase1 (handleSearchPhase1 initialState qLearn 2).1 qShort 2).1
        qLearn (.returned (some idxAB)) 50).display =
      .resultsList (performSearch qLearn idxAB 50) qLearn := by
  refine ⟨rfl, rfl, rfl, ?_⟩
  rw [handleSearchPhase2_current _ qLearn idxAB 50 rfl, performSearch_AB_50]
  simp [displayResults]

/-- C2 (amended): the staleness guard holds for any resumption state whose
`currentQuery` differs from the pending query — the pending continuation
never renders results (it leaves the display unchanged, or shows the error
display when the load threw) and never touches the cache; inputs of at
least the minimum length and the explicit clear action do update
`currentQuery` (so "last query wins" for them); but an input shorter than
the minimum only clears the display and leaves `currentQuery` untouched,
so it does not invalidate a pending query (cf. the counterexample). -/
theorem staleness_guard_amended (s : SearchState) (query : Str) (loadRes : LoadResult)
    (maxResults : Nat) (hst : s.currentQuery ≠ query) :
    ((handleSearchPhase2 s query loadRes maxResults).display = s.display ∨
      (handleSearchPhase2 s query loadRes maxResults).display = .error) ∧
    (handleSearchPhase2 s query loadRes maxResults).searchCache = s.searchCache ∧
    (∀ raw minQueryLength, minQueryLength ≤ (trimStr raw).length →
      (handleSearchPhase1 s raw minQueryLength).1.currentQuery = trimStr raw) ∧
    (clearSearch s).currentQuery = [] ∧
    (∀ raw minQueryLength, (trimStr raw).length < minQueryLength →
      (handleSearchPhase1 s raw minQueryLength).1 = clearResults s) := by
  refine ⟨?_, ?_, ?_, rfl, ?_⟩
  · cases loadRes with
    | threw => exact Or.inr rfl
    | returned v =>
      cases v with
      | none => exact Or.inl rfl
      | some idx =>
        unfold handleSearchPhase2
        dsimp only
        rw [if_pos hst]
        exact Or.inl rfl
  · cases loadRes with
    | threw => rfl
    | returned v =>
      cases v with
      | none => rfl
      | some idx =>
        unfold handleSearchPhase2
        dsimp only
        rw [if_pos hst]
  · intro raw minQueryLength hlen
    unfold handleSearchPhase1
    rw [if_neg (by omega : ¬ (trimStr raw).length < minQueryLength)]
    dsimp only
    cases hcase : cacheLookup s.searchCache (trimStr raw) <;> simp [displayResults]
  · intro raw minQueryLength hshort
    unfold handleSearchPhase1
    rw [if_pos hshort]

/-- C2 (witness): the staleness guard at a concrete stale resumption
state. -/
theorem staleness_guard_amended_witness :
    (handleSearchPhase2 { initialState with currentQuery := qLearn } qShort
        (.returned (some idxAB)) 50).display =
      ({ initialState with currentQuery := qLearn } : SearchState).display ∨
    (handleSearchPhase2 { initialState with currentQuery := qLearn } qShort
        (.returned (some idxAB)) 50).display = .error :=
  (staleness_guard_amended { initialState with currentQuery := qLearn } qShort
    (.returned (some idxAB)) 50 (by decide)).1

/-- C6: issuing an uncached query of sufficient length suspends, runs the
search once the index arrives and stores the result sequence in the cache
under the exact trimmed query; a second issuance of the same raw input is
answered from the cache — phase 1 completes with a `cacheHit` carrying
exactly the stored sequence and displays it, never reaching the suspended
segment, which is the only place `performSearch` is invoked (no scoring
work on the second issuance). -/
theorem search_cache_law (s : SearchState) (raw : Str)
    (searchIndex : List IndexedDocument) (maxResults minQueryLength : Nat)
    (hlen : minQueryLength ≤ (trimStr raw).length)
    (hmiss : cacheLookup s.searchCache (trimStr raw) = none) :
    handleSearchPhase1 s raw minQueryLength =
      ({ s with currentQuery := trimStr raw }, .suspended (trimStr raw)) ∧
    cacheLookup (handleSearchPhase2 { s with currentQuery := trimStr raw } (trimStr raw)
        (.returned (some searchIndex)) maxResults).searchCache (trimStr raw) =
      some (performSearch (trimStr raw) searchIndex maxResults) ∧
    (handleSearchPhase1 (handleSearchPhase2 { s with currentQuery := trimStr raw }
        (trimStr raw) (.returned (some searchIndex)) maxResults) raw minQueryLength).2 =
      .cacheHit (performSearch (trimStr raw) searchIndex maxResults) ∧
    (handleSearchPhase1 (handleSearchPhase2 { s with currentQuery := trimStr raw }
        (trimStr raw) (.returned (some searchIndex)) maxResults) raw
        minQueryLength).1.display =
      (if performSearch (trimStr raw) searchIndex maxResults = [] then
        Display.noResults (trimStr raw)
      else
        Display.resultsList (performSearch (trimStr raw) searchIndex maxResults)
          (trimStr raw)) := by
  have h2 := handleSearchPhase2_current { s with currentQuery := trimStr raw }
    (trimStr raw) searchIndex maxResults rfl
  have hc : cacheLookup (handleSearchPhase2 { s with currentQuery := trimStr raw }
      (trimStr raw) (.returned (some searchIndex)) maxResults).searchCache (trimStr raw) =
      some (performSearch (trimStr raw) searchIndex maxResults) := by
    rw [h2]
    simp [displayResults, cacheLookup_cacheInsert]
  refine ⟨handleSearchPhase1_uncached s raw minQueryLength hlen hmiss, hc, ?_, ?_⟩
  · rw [handleSearchPhase1_hit _ raw minQueryLength _ hlen hc]
  · rw [handleSearchPhase1_hit _ raw minQueryLength _ hlen hc]
    simp [displayResults]

/-- C6 (witness): the cache law at a concrete state, query and index. -/
theorem search_cache_law_witness :
    (handleSearchPhase1 (handleSearchPhase2
        { initialState with currentQuery := trimStr qLearn } (trimStr qLearn)
        (.returned (some idxAB)) 50) qLearn 2).2 =
      .cacheHit (performSearch (trimStr qLearn) idxAB 50) :=
  (search_cache_law initialState qLearn idxAB 50 2 (by decide) rfl).2.2.1

/-- C7 (counterexample): when the index load fails with HTTP 500, the
caller that started the load observes a thrown error, while a concurrent
caller that waited out the in-flight load resolves to null (`searchIndex`
is still unset) — the two observations differ, contradicting "the same
eventual result ... both on success and on failure". -/
theorem load_failure_waiter_divergence :
    (loadSearchIndex initialState (.httpError 500) initialState).1 = .threw ∧
    (loadSearchIndex midLoadState (.httpError 500)
        (loadSearchIndex initialState (.httpError 500) initialState).2).1 =
      .returned none ∧
    LoadResult.threw ≠ .returned none := by
  exact ⟨rfl, rfl, by decide⟩

/-- C7 (amended): a `loadSearchIndex` call made while a load is in flight
issues no second fetch — it merely waits and observes the settled state's
index; on success the initiator stores the index it returns, so waiters
observe the same index; on abort both the initiator and waiters observe
"no index"; on a fetch failure, however, the initiator observes the thrown
error while waiters resolve to null. -/
theorem load_single_flight_amended (s sMid settled : SearchState)
    (outcome : FetchOutcome) (data : List DocumentRecord) (status : Nat)
    (hmi : sMid.searchIndex = none) (hml : sMid.isLoading = true)
    (hsi : s.searchIndex = none) (hsl : s.isLoading = false) :
    loadSearchIndex sMid outcome settled = (.returned settled.searchIndex, settled) ∧
    ((loadSearchIndex s (.success data) settled).1 =
        .returned (some (preprocessSearchData data)) ∧
      (loadSearchIndex s (.success data) settled).2.searchIndex =
        some (preprocessSearchData data) ∧
      (loadSearchIndex s (.success data) settled).2.fetchCount = s.fetchCount + 1) ∧
    ((loadSearchIndex s .aborted settled).1 = .returned none ∧
      (loadSearchIndex s .aborted settled).2.searchIndex = none ∧
      (loadSearchIndex s .aborted settled).2.fetchCount = s.fetchCount + 1) ∧
    ((loadSearchIndex s (.httpError status) settled).1 = .threw ∧
      (loadSearchIndex s (.httpError status) settled).2.searchIndex = none) := by
  refine ⟨?_, ?_, ?_, ?_⟩ <;>
    simp [loadSearchIndex, hmi, hml, hsi, hsl, showLoadingState, showErrorState]

/-- C7 (witness): a concurrent caller observing an in-flight load at a
concrete mid-flight state. -/
theorem load_single_flight_amended_witness :
    loadSearchIndex midLoadState .aborted initialState =
      (.returned initialState.searchIndex, initialState) :=
  (load_single_flight_amended initialState midLoadState initialState .aborted [] 500
    rfl rfl rfl rfl).1

/-- C8: an index load answered with a non-2xx status fails with a thrown
fetch error, the result container transitions to the error display inside
the loader itself, and neither a user-triggered search (whose `catch`
shows the error display and returns normally) nor the constructor preload
(whose `catch` swallows the error) lets the fault escape: both complete in
a state whose display is the error state. -/
theorem http_error_shows_error_state (s settled : SearchState) (raw : Str)
    (status maxResults minQueryLength : Nat)
    (hsi : s.searchIndex = none) (hsl : s.isLoading = false)
    (hlen : minQueryLength ≤ (trimStr raw).length)
    (hmiss : cacheLookup s.searchCache (trimStr raw) = none) :
    (loadSearchIndex s (.httpError status) settled).1 = .threw ∧
    (loadSearchIndex s (.httpError status) settled).2.display = .error ∧
    (handleSearchRun s raw (.httpError status) settled maxResults minQueryLength).display =
      .error ∧
    (preloadSearchIndex s (.httpError status) settled).display = .error := by
  have hload1 : (loadSearchIndex s (.httpError status) settled).1 = .threw := by
    simp [loadSearchIndex, hsi, hsl, showLoadingState, showErrorState]
  have hload2 : (loadSearchIndex s (.httpError status) settled).2.display = .error := by
    simp [loadSearchIndex, hsi, hsl, showLoadingState, showErrorState]
  refine ⟨hload1, hload2, ?_, hload2⟩
  unfold handleSearchRun
  rw [handleSearchPhase1_uncached s raw minQueryLength hlen hmiss]
  dsimp only
  have h1' : (loadSearchIndex { s with currentQuery := trimStr raw } (.httpError status)
      settled).1 = .threw := by
    simp [loadSearchIndex, hsi, hsl, showLoadingState, showErrorState]
  rw [h1']
  simp [handleSearchPhase2, showErrorState]

/-- C8 (witness): a user search hitting an HTTP 500 index load at the
initial state ends with the error display. -/
theorem http_error_shows_error_state_witness :
    (handleSearchRun initialState qLearn (.httpError 500) initialState 50 2).display =
      .error :=
  (http_error_shows_error_state initialState initialState qLearn 500 50 2 rfl rfl
    (by decide) rfl).2.2.1

/-- C9 (counterexample): after an aborted index load during a user search,
the load resolves to null and the loader state is reset, but no code path
updates the result container: the loading display set when the load began
is still showing after the whole run settles — contradicting "the UI is
never left showing the loading state indefinitely after the load
settles". -/
theorem abort_leaves_loading_display :
    (loadSearchIndex initialState .aborted initialState).1 = .returned none ∧
    (loadSearchIndex initialState .aborted initialState).2.isLoading = false ∧
    (loadSearchIndex initialState .aborted initialState).2.abortController = false ∧
    (handleSearchRun initialState qLearn .aborted initialState 50 2).display =
      .loading := by
  exact ⟨rfl, rfl, rfl, rfl⟩

/-- C9 (amended): an aborted fetch is not surfaced as an error — the load
resolves to null, `isLoading` and the `AbortController` are reset (so a
later retry loads normally, as the final conjunct shows) — but the result
container keeps showing the loading display after the aborted load
settles, until some later action overwrites it. -/
theorem abort_resolves_null_amended (s settled settled2 : SearchState)
    (data : List DocumentRecord)
    (hsi : s.searchIndex = none) (hsl : s.isLoading = false) :
    (loadSearchIndex s .aborted settled).1 = .returned none ∧
    (loadSearchIndex s .aborted settled).2.isLoading = false ∧
    (loadSearchIndex s .aborted settled).2.abortController = false ∧
    (loadSearchIndex s .aborted settled).2.searchIndex = none ∧
    (loadSearchIndex s .aborted settled).2.display = .loading ∧
    (loadSearchIndex (loadSearchIndex s .aborted settled).2 (.success data) settled2).1 =
      .returned (some (preprocessSearchData data)) := by
  refine ⟨?_, ?_, ?_, ?_, ?_, ?_⟩ <;>
    simp [loadSearchIndex, hsi, hsl, showLoadingState, showErrorState]

/-- C9 (witness): the amended abort behaviour at the initial state. -/
theorem abort_resolves_null_amended_witness :
    (loadSearchIndex initialState .aborted initialState).1 = .returned none :=
  (abort_resolves_null_amended initialState initialState initialState [] rfl rfl).1
